import Mathlib

/-!
Verification of the Boostify authentication/session/authorization core
(`src/server.js`): the Signer (HMAC-signed cookies), the in-memory session
store, the OAuth callback route, the role-based access resolver and the
auth middleware.

JavaScript strings are modelled as `List Char`.  The HMAC-SHA256 primitive
(node `crypto`) is an external collaborator: it is taken as an explicit
function parameter `hmac : Str → Str → Str`; where a property rests on its
output being hex (dot-free) or on collision resistance, that appears as an
explicit hypothesis.  Outbound network calls are likewise explicit
parameters returning their (already-parsed) responses.
-/

namespace Boostify

/-- JavaScript strings, modelled as lists of characters. -/
abbrev Str := List Char

/-- Truthiness of an optional string: `undefined` and the empty string are
falsy in JavaScript (`!x`), any other string is truthy. -/
def isFalsy : Option Str → Bool
  | none => true
  | some s => s.isEmpty

/-- JavaScript `s.split(".")`: splits a string at every occurrence of the
dot character, keeping empty segments; the empty string splits to `[""]`. -/
def splitOnDot : Str → List Str
  | [] => [[]]
  | c :: rest =>
    if c = '.' then [] :: splitOnDot rest
    else
      match splitOnDot rest with
      | [] => [[c]]
      | p :: ps => (c :: p) :: ps

/-- The default session secret: `process.env.SESSION_SECRET || "change_me"`. -/
def changeMe : Str := "change_me".toList

/-- Effective session secret, from `SESSION_SECRET` in the environment with
the JavaScript `||` fallback (absent or empty falls back to the default). -/
def effectiveSecret (env : Option Str) : Str :=
  match env with
  | none => changeMe
  | some s => if s.isEmpty then changeMe else s

/-- `sign(value)`: appends the hex HMAC of `value` under the session secret,
joined by a dot (`src/server.js` lines 35-38). -/
def sign (hmac : Str → Str → Str) (secret : Str) (value : Str) : Str :=
  value ++ '.' :: hmac secret value

/-- `verify(signed)` (`src/server.js` lines 40-46): `null` when the input is
absent, empty or has no dot; otherwise splits on dots, takes the first two
segments as value and supplied HMAC, recomputes the HMAC of the value and
returns the value only on an exact match. -/
def verify (hmac : Str → Str → Str) (secret : Str) (signed : Option Str) :
    Option Str :=
  match signed with
  | none => none
  | some s =>
    if s = [] then none
    else if '.' ∈ s then
      match splitOnDot s with
      | value :: h :: _ => if h = hmac secret value then some value else none
      | _ => none
    else none

/-- Splitting a dot-free string yields that single segment. -/
theorem splitOnDot_dotFree (v : Str) (hv : '.' ∉ v) : splitOnDot v = [v] := by
  induction v with
  | nil => rfl
  | cons c rest ih =>
    have hc : c ≠ '.' := fun h => hv (h ▸ List.mem_cons_self c rest)
    have hrest : '.' ∉ rest := fun h => hv (List.mem_cons_of_mem c h)
    simp [splitOnDot, hc, ih hrest]

/-- Splitting peels off a dot-free segment before the first dot. -/
theorem splitOnDot_append (v r : Str) (hv : '.' ∉ v) :
    splitOnDot (v ++ '.' :: r) = v :: splitOnDot r := by
  induction v with
  | nil => simp [splitOnDot]
  | cons c rest ih =>
    have hc : c ≠ '.' := fun h => hv (h ▸ List.mem_cons_self c rest)
    have hrest : '.' ∉ rest := fun h => hv (List.mem_cons_of_mem c h)
    simp [splitOnDot, hc, ih hrest]

/-- A signed token is never the empty string. -/
theorem sign_ne_nil (hmac : Str → Str → Str) (secret v : Str) :
    sign hmac secret v ≠ [] := by
  simp [sign]

/-- A signed token always contains the dot delimiter. -/
theorem dot_mem_sign (hmac : Str → Str → Str) (secret v : Str) :
    '.' ∈ sign hmac secret v := by
  simp [sign]

/-- C1.  Signer round-trip: for every value `v` in which the delimiter `.`
does not occur (and with the HMAC producing hex, hence dot-free, output),
`verify (sign v) = v`. -/
theorem sign_verify_roundtrip (hmac : Str → Str → Str) (secret v : Str)
    (hv : '.' ∉ v) (hh : '.' ∉ hmac secret v) :
    verify hmac secret (some (sign hmac secret v)) = some v := by
  have hsplit : splitOnDot (sign hmac secret v) = [v, hmac secret v] := by
    rw [sign, splitOnDot_append v (hmac secret v) hv,
      splitOnDot_dotFree (hmac secret v) hh]
  simp [verify, sign_ne_nil hmac secret v, dot_mem_sign hmac secret v, hsplit]

/-- Concrete stand-in for the HMAC collaborator used by witnesses: prefixes
the value with a marker character (dot-free whenever the value is, and
injective in the value). -/
def hmacC : Str → Str → Str := fun _ v => 'h' :: v

/-- C1 witness: the round-trip at a concrete value, secret and HMAC. -/
theorem sign_verify_roundtrip_witness :
    verify hmacC ("s".toList) (some (sign hmacC ("s".toList) ("abc".toList)))
      = some ("abc".toList) :=
  sign_verify_roundtrip hmacC ("s".toList) ("abc".toList)
    (by decide) (by decide)

/-- Evaluating verify on a token whose first two dot-separated segments are
known. -/
theorem verify_eval (hmac : Str → Str → Str) (secret : Str) (s v h : Str)
    (hs : s ≠ []) (hmem : '.' ∈ s) (hsplit : ∃ r, splitOnDot s = v :: h :: r) :
    verify hmac secret (some s)
      = if h = hmac secret v then some v else none := by
  obtain ⟨r, hr⟩ := hsplit
  simp [verify, hs, hmem, hr]

/-- C6.  Tampering and malformedness: a token without the delimiter is
invalid, a token whose supplied signature differs from the recomputed HMAC
(signature byte flipped) is invalid, a token whose payload was altered
without resigning is invalid for any pair of payloads the HMAC separates
(the spec assumes a collision-resistant hash), and verify is a total
function — every input yields `none` or `some`, never an exception. -/
theorem verify_tamper_invalid (hmac : Str → Str → Str) (secret : Str) :
    (∀ t : Str, '.' ∉ t → verify hmac secret (some t) = none) ∧
    (∀ v h : Str, '.' ∉ v → '.' ∉ h → h ≠ hmac secret v →
      verify hmac secret (some (v ++ '.' :: h)) = none) ∧
    (∀ v w : Str, '.' ∉ w → '.' ∉ hmac secret v →
      hmac secret w ≠ hmac secret v →
      verify hmac secret (some (w ++ '.' :: hmac secret v)) = none) ∧
    (∀ t : Option Str, verify hmac secret t = none ∨
      ∃ v, verify hmac secret t = some v) := by
  refine ⟨fun t ht => ?_, fun v h hv hh hne => ?_, fun v w hw hh hne => ?_,
    fun t => ?_⟩
  · cases t with
    | nil => simp [verify]
    | cons c r => simp [verify, ht]
  · rcases eq_or_ne (v ++ '.' :: h) [] with hnil | hnil
    · simp at hnil
    · have := verify_eval hmac secret (v ++ '.' :: h) v h hnil (by simp)
        ⟨[], by rw [splitOnDot_append v h hv, splitOnDot_dotFree h hh]⟩
      rw [this, if_neg hne]
  · rcases eq_or_ne (w ++ '.' :: hmac secret v) [] with hnil | hnil
    · simp at hnil
    · have := verify_eval hmac secret (w ++ '.' :: hmac secret v) w
        (hmac secret v) hnil (by simp)
        ⟨[], by rw [splitOnDot_append w (hmac secret v) hw,
          splitOnDot_dotFree (hmac secret v) hh]⟩
      rw [this, if_neg (fun he => hne he.symm)]
  · cases hv : verify hmac secret t with
    | none => exact Or.inl rfl
    | some v => exact Or.inr ⟨v, rfl⟩

/-- C6 witness: concrete tampered and malformed tokens are all rejected. -/
theorem verify_tamper_invalid_witness :
    verify hmacC ("s".toList) (some ("nodothere".toList)) = none ∧
    verify hmacC ("s".toList) (some ("abc.xabc".toList)) = none ∧
    verify hmacC ("s".toList) (some ("abd.habc".toList)) = none ∧
    (verify hmacC ("s".toList) (some ("q".toList)) = none ∨
      ∃ v, verify hmacC ("s".toList) (some ("q".toList)) = some v) := by
  refine ⟨?_, ?_, ?_, ?_⟩
  · exact (verify_tamper_invalid hmacC ("s".toList)).1 ("nodothere".toList)
      (by decide)
  · exact (verify_tamper_invalid hmacC ("s".toList)).2.1 ("abc".toList)
      ("xabc".toList) (by decide) (by decide) (by decide)
  · exact (verify_tamper_invalid hmacC ("s".toList)).2.2.1 ("abc".toList)
      ("abd".toList) (by decide) (by decide) (by decide)
  · exact (verify_tamper_invalid hmacC ("s".toList)).2.2.2
      (some ("q".toList))

/-- C10.  Verify reads only the first two dot-separated segments: appending
a dot and any suffix to a valid token still verifies to the same value, and
the extended token differs from the plain signed token, so verification does
not pin down a unique token per value. -/
theorem verify_ignores_suffix (hmac : Str → Str → Str) (secret v s : Str)
    (hv : '.' ∉ v) (hh : '.' ∉ hmac secret v) :
    verify hmac secret (some (sign hmac secret v ++ '.' :: s)) = some v ∧
    sign hmac secret v ++ '.' :: s ≠ sign hmac secret v := by
  constructor
  · have hform : sign hmac secret v ++ '.' :: s
        = v ++ '.' :: (hmac secret v ++ '.' :: s) := by
      simp [sign]
    have hsplit : splitOnDot (sign hmac secret v ++ '.' :: s)
        = v :: hmac secret v :: splitOnDot s := by
      rw [hform, splitOnDot_append v _ hv,
        splitOnDot_append (hmac secret v) s hh]
    have hne : sign hmac secret v ++ '.' :: s ≠ [] := by simp [sign]
    have hmem : '.' ∈ sign hmac secret v ++ '.' :: s := by simp
    rw [verify_eval hmac secret _ v (hmac secret v) hne hmem
      ⟨splitOnDot s, hsplit⟩, if_pos rfl]
  · intro he
    have := congrArg List.length he
    simp at this

/-- C10 witness: a concrete extended token verifies to the original value
and differs from the plain signed token. -/
theorem verify_ignores_suffix_witness :
    verify hmacC ("s".toList)
        (some (sign hmacC ("s".toList) ("abc".toList) ++ '.' :: "junk".toList))
      = some ("abc".toList) ∧
    sign hmacC ("s".toList) ("abc".toList) ++ '.' :: "junk".toList
      ≠ sign hmacC ("s".toList) ("abc".toList) :=
  verify_ignores_suffix hmacC ("s".toList) ("abc".toList) ("junk".toList)
    (by decide) (by decide)

/-- A stored session: the identity recorded at the OAuth callback
(`sessions.set(sid, { discord_user_id, username })`). -/
structure Session where
  discord_user_id : Str
  username : Str
deriving DecidableEq

/-- The in-memory session store, a JavaScript `Map` from session id to
session, modelled as a duplicate-free association list in insertion order. -/
abbrev SessionsMap := List (Str × Session)

/-- `Map.get`: the value at the first matching key, if any. -/
def mapGet (m : SessionsMap) (k : Str) : Option Session :=
  match m with
  | [] => none
  | (k2, v) :: rest => if k2 = k then some v else mapGet rest k

/-- `Map.has`. -/
def mapHas (m : SessionsMap) (k : Str) : Bool :=
  (mapGet m k).isSome

/-- `Map.set`: replaces the value in place when the key is present,
otherwise appends a new entry. -/
def mapSet (m : SessionsMap) (k : Str) (v : Session) : SessionsMap :=
  match m with
  | [] => [(k, v)]
  | (k2, v2) :: rest =>
    if k2 = k then (k, v) :: rest else (k2, v2) :: mapSet rest k v

/-- `Map.delete`: removes the entry at the key; a no-op on a missing key. -/
def mapDelete (m : SessionsMap) (k : Str) : SessionsMap :=
  match m with
  | [] => []
  | (k2, v) :: rest =>
    if k2 = k then mapDelete rest k else (k2, v) :: mapDelete rest k

/-- Lowercase hex digit, as produced by `Buffer.toString("hex")`. -/
def hexDigit (n : Nat) : Char :=
  if n < 10 then Char.ofNat (48 + n) else Char.ofNat (87 + n)

/-- Hex encoding of one byte: two lowercase hex digits. -/
def hexByte (b : Nat) : Str :=
  [hexDigit (b / 16), hexDigit (b % 16)]

/-- `makeSid()` (`src/server.js` lines 31-33): hex encoding of the random
bytes drawn from `crypto.randomBytes(24)`; the byte list is the external
randomness source. -/
def makeSid : List Nat → Str
  | [] => []
  | b :: rest => hexByte b ++ makeSid rest

/-- `requireAuth` middleware (`src/server.js` lines 48-54): verifies the
`sid` cookie, rejects (401, `none`) when verification fails, the verified
value is empty (falsy), or the id is not in the store; otherwise yields the
session id and session. -/
def requireAuth (hmac : Str → Str → Str) (secretEnv : Option Str)
    (store : SessionsMap) (sidCookie : Option Str) : Option (Str × Session) :=
  match verify hmac (effectiveSecret secretEnv) sidCookie with
  | none => none
  | some sid =>
    if sid = [] then none
    else
      match mapGet store sid with
      | none => none
      | some sess => some (sid, sess)

/-- `POST /logout` handler body (`src/server.js` lines 206-210), reached
only after `requireAuth` succeeded: deletes the session, clears the `sid`
cookie (the boolean) and answers `{ ok: true }`. -/
def logoutRoute (store : SessionsMap) (sid : Str) : SessionsMap × Bool :=
  (mapDelete store sid, true)

/-- After deleting a key, `Map.get` at that key is `none`. -/
theorem mapGet_mapDelete_self (m : SessionsMap) (k : Str) :
    mapGet (mapDelete m k) k = none := by
  induction m with
  | nil => rfl
  | cons p rest ih =>
    obtain ⟨k2, v⟩ := p
    by_cases h : k2 = k
    · simpa [mapDelete, h] using ih
    · simpa [mapDelete, mapGet, h] using ih

/-- When the key is absent, `Map.set` appends and disturbs no entry. -/
theorem mapSet_absent (m : SessionsMap) (k : Str) (v : Session)
    (h : mapHas m k = false) : mapSet m k v = m ++ [(k, v)] := by
  induction m with
  | nil => rfl
  | cons p rest ih =>
    obtain ⟨k2, v2⟩ := p
    simp only [mapHas, mapGet] at h
    by_cases hk : k2 = k
    · simp [hk] at h
    · simp only [mapSet, if_neg hk, List.cons_append, List.cons.injEq,
        true_and]
      exact ih (by simpa [mapHas, hk] using h)

/-- Hex encoding of a byte list has twice its length. -/
theorem makeSid_length (bytes : List Nat) :
    (makeSid bytes).length = 2 * bytes.length := by
  induction bytes with
  | nil => rfl
  | cons b rest ih =>
    simp [makeSid, hexByte, ih]
    ring

/-- The identity returned by the provider's current-user endpoint
(`GET /api/users/@me`), already parsed. -/
structure Identity where
  id : Str
  username : Str
deriving DecidableEq

/-- What the `/callback` route sends back: the HTTP status, the `sid`
cookie value set (if any) and whether the `oauth_state` cookie was
cleared. -/
structure CallbackRes where
  status : Nat
  sidCookie : Option Str
  clearedOauthState : Bool
deriving DecidableEq

/-- `GET /callback` (`src/server.js` lines 83-133).  Inputs: the query
parameters `code` and `state`, the `oauth_state` nonce cookie, the
configured client secret and raw session secret, the two outbound calls
(token exchange to an access token, user fetch to an identity — each
`Except` carrying the provider's error text on a non-success response) and
the fresh id drawn by `makeSid`.  Returns the response together with the
session store after the request. -/
def callbackRoute (hmac : Str → Str → Str) (clientSecret sessionSecretEnv :
    Option Str) (tokenExchange : Str → Except Str Str)
    (fetchUser : Str → Except Str Identity) (freshSid : Str)
    (code state oauthCookie : Option Str) (store : SessionsMap) :
    CallbackRes × SessionsMap :=
  if isFalsy code = true ∨ isFalsy state = true ∨ state ≠ oauthCookie then
    (⟨400, none, false⟩, store)
  else if isFalsy clientSecret = true then
    (⟨500, none, false⟩, store)
  else
    match tokenExchange (code.getD []) with
    | .error _ => (⟨500, none, false⟩, store)
    | .ok accessToken =>
      match fetchUser accessToken with
      | .error _ => (⟨500, none, false⟩, store)
      | .ok me =>
        (⟨302, some (sign hmac (effectiveSecret sessionSecretEnv) freshSid),
            true⟩,
          mapSet store freshSid ⟨me.id, me.username⟩)

/-- The (parsed) guild-member endpoint response: HTTP status, the
`member.roles` field when the parsed body carries an array, and the error
body text. -/
structure MemberRes where
  status : Nat
  roles : Option (List Str)
  errText : Str
deriving DecidableEq

/-- `roles.includes(ROLE_ID)` with the role id possibly undefined: an
undefined id is never an element. -/
def includesOpt (roles : List Str) (rid : Option Str) : Bool :=
  match rid with
  | none => false
  | some r => roles.contains r

/-- `fetchMemberRoles(userId)` (`src/server.js` lines 136-155): each of the
four configuration values missing yields `[]`; a 404 from the member lookup
yields `[]` (not in the guild); any other non-2xx response throws; a
success yields `member.roles` when it is an array, else `[]`. -/
def fetchMemberRoles (guildId botToken roleBasic rolePro : Option Str)
    (memberRes : MemberRes) : Except Str (List Str) :=
  if isFalsy guildId then .ok []
  else if isFalsy botToken then .ok []
  else if isFalsy roleBasic then .ok []
  else if isFalsy rolePro then .ok []
  else if memberRes.status = 404 then .ok []
  else if 200 ≤ memberRes.status ∧ memberRes.status ≤ 299 then
    .ok (memberRes.roles.getD [])
  else .error ("Member fetch failed: ".toList ++ memberRes.errText)

/-- The derived entitlements. -/
structure Access where
  has_basic : Bool
  has_pro : Bool
deriving DecidableEq

/-- The pure entitlement derivation inside `getAccess`
(`src/server.js` lines 157-162): `has_pro = roles.includes(ROLE_PRO_ID)`,
`has_basic = has_pro || roles.includes(ROLE_BASIC_ID)`. -/
def getAccessFromRoles (roleBasic rolePro : Option Str)
    (roles : List Str) : Access :=
  let has_pro := includesOpt roles rolePro
  { has_basic := has_pro || includesOpt roles roleBasic, has_pro := has_pro }

/-- `getAccess(userId)`: fetches the member roles (propagating a thrown
error) and derives the entitlements. -/
def getAccess (guildId botToken roleBasic rolePro : Option Str)
    (memberRes : MemberRes) : Except Str Access :=
  match fetchMemberRoles guildId botToken roleBasic rolePro memberRes with
  | .error e => .error e
  | .ok roles => .ok (getAccessFromRoles roleBasic rolePro roles)

/-- C5.  Pro implies Basic: for every role list the derivation gives
`has_basic = true` whenever `has_pro = true`, and the same holds of every
successful `getAccess` result. -/
theorem getAccess_pro_implies_basic :
    (∀ (roleBasic rolePro : Option Str) (roles : List Str),
      (getAccessFromRoles roleBasic rolePro roles).has_pro = true →
      (getAccessFromRoles roleBasic rolePro roles).has_basic = true) ∧
    (∀ (g b rb rp : Option Str) (res : MemberRes) (a : Access),
      getAccess g b rb rp res = .ok a → a.has_pro = true →
      a.has_basic = true) := by
  have hpure : ∀ (roleBasic rolePro : Option Str) (roles : List Str),
      (getAccessFromRoles roleBasic rolePro roles).has_pro = true →
      (getAccessFromRoles roleBasic rolePro roles).has_basic = true := by
    intro rb rp roles hp
    simp only [getAccessFromRoles] at hp ⊢
    simp [hp]
  refine ⟨hpure, fun g b rb rp res a ha hp => ?_⟩
  unfold getAccess at ha
  cases hf : fetchMemberRoles g b rb rp res with
  | error e => rw [hf] at ha; cases ha
  | ok roles =>
    rw [hf] at ha
    cases ha
    exact hpure rb rp roles hp

/-- C5 witness: a role list holding only the Pro role yields both
entitlements, through the pure derivation and through `getAccess`. -/
theorem getAccess_pro_implies_basic_witness :
    (getAccessFromRoles (some ("b".toList)) (some ("p".toList))
      [("p".toList)]).has_basic = true ∧
    (Access.mk true true).has_basic = true := by
  constructor
  · exact getAccess_pro_implies_basic.1 (some ("b".toList))
      (some ("p".toList)) [("p".toList)] (by decide)
  · exact getAccess_pro_implies_basic.2 (some ("g".toList))
      (some ("t".toList)) (some ("b".toList)) (some ("p".toList))
      ⟨200, some [("p".toList)], []⟩ ⟨true, true⟩ rfl (by decide)

/-- C8.  Fail-closed role fetch: any of the four configuration values
missing yields the empty role list (not an error); a not-found member
lookup yields the empty role list; with full configuration, any other
non-success status is a terminal error. -/
theorem fetchMemberRoles_failclosed :
    (∀ (g b rb rp : Option Str) (res : MemberRes),
      isFalsy g = true ∨ isFalsy b = true ∨ isFalsy rb = true ∨
        isFalsy rp = true →
      fetchMemberRoles g b rb rp res = .ok []) ∧
    (∀ (g b rb rp : Option Str) (res : MemberRes),
      res.status = 404 → fetchMemberRoles g b rb rp res = .ok []) ∧
    (∀ (g b rb rp : Option Str) (res : MemberRes),
      isFalsy g = false → isFalsy b = false → isFalsy rb = false →
      isFalsy rp = false → res.status ≠ 404 →
      ¬(200 ≤ res.status ∧ res.status ≤ 299) →
      ∃ e, fetchMemberRoles g b rb rp res = .error e) := by
  refine ⟨fun g b rb rp res h => ?_, fun g b rb rp res h => ?_,
    fun g b rb rp res h1 h2 h3 h4 h5 h6 => ?_⟩
  · unfold fetchMemberRoles
    split_ifs <;> simp_all
  · unfold fetchMemberRoles
    split_ifs <;> simp_all
  · refine ⟨"Member fetch failed: ".toList ++ res.errText, ?_⟩
    unfold fetchMemberRoles
    rw [if_neg (by simp [h1]), if_neg (by simp [h2]), if_neg (by simp [h3]),
      if_neg (by simp [h4]), if_neg h5, if_neg h6]

/-- C8 witness: a missing guild id and a 404 each yield the empty list; a
500 with full configuration is a terminal error. -/
theorem fetchMemberRoles_failclosed_witness :
    fetchMemberRoles none (some ("t".toList)) (some ("b".toList))
      (some ("p".toList)) ⟨200, some [], []⟩ = .ok [] ∧
    fetchMemberRoles (some ("g".toList)) (some ("t".toList))
      (some ("b".toList)) (some ("p".toList)) ⟨404, none, []⟩ = .ok [] ∧
    ∃ e, fetchMemberRoles (some ("g".toList)) (some ("t".toList))
      (some ("b".toList)) (some ("p".toList)) ⟨500, none, "boom".toList⟩
        = .error e := by
  refine ⟨?_, ?_, ?_⟩
  · exact fetchMemberRoles_failclosed.1 none (some ("t".toList))
      (some ("b".toList)) (some ("p".toList)) ⟨200, some [], []⟩
      (Or.inl (by decide))
  · exact fetchMemberRoles_failclosed.2.1 (some ("g".toList))
      (some ("t".toList)) (some ("b".toList)) (some ("p".toList))
      ⟨404, none, []⟩ (by decide)
  · exact fetchMemberRoles_failclosed.2.2 (some ("g".toList))
      (some ("t".toList)) (some ("b".toList)) (some ("p".toList))
      ⟨500, none, "boom".toList⟩ (by decide) (by decide) (by decide)
      (by decide) (by decide) (by decide)

/-- C2.  Invalid state: whenever `code` is absent (falsy), `state` is
absent (falsy), or `state` differs from the `oauth_state` nonce cookie, the
callback answers 400 with the store unchanged, no `sid` cookie set and the
nonce cookie untouched — regardless of the collaborators, so regardless of
whether `code` would have been valid. -/
theorem callback_invalid_state (hmac : Str → Str → Str)
    (clientSecret sessionSecretEnv : Option Str)
    (tokenExchange : Str → Except Str Str)
    (fetchUser : Str → Except Str Identity) (freshSid : Str)
    (code state oauthCookie : Option Str) (store : SessionsMap)
    (h : isFalsy code = true ∨ isFalsy state = true ∨ state ≠ oauthCookie) :
    callbackRoute hmac clientSecret sessionSecretEnv tokenExchange fetchUser
        freshSid code state oauthCookie store
      = (⟨400, none, false⟩, store) := by
  unfold callbackRoute
  rw [if_pos h]

/-- C2 witness: a present, valid-looking `code` with a mismatched `state`
is rejected with no session created and no cookie set. -/
theorem callback_invalid_state_witness :
    callbackRoute hmacC (some ("cs".toList)) (some ("s".toList))
        (fun _ => .ok ("tok".toList))
        (fun _ => .ok ⟨"42".toList, "ann".toList⟩) ("f".toList)
        (some ("c".toList)) (some ("evil".toList)) (some ("st".toList)) []
      = (⟨400, none, false⟩, []) :=
  callback_invalid_state hmacC (some ("cs".toList)) (some ("s".toList))
    (fun _ => .ok ("tok".toList))
    (fun _ => .ok ⟨"42".toList, "ann".toList⟩) ("f".toList)
    (some ("c".toList)) (some ("evil".toList)) (some ("st".toList)) []
    (Or.inr (Or.inr (by decide)))

/-- C7.  Callback atomicity: if the callback left the store changed or set
a `sid` cookie, then the state check passed, the client secret was present,
the token exchange succeeded and the user fetch succeeded — equivalently,
on every failure path no session entry is created and no cookie is set. -/
theorem callback_atomicity (hmac : Str → Str → Str)
    (clientSecret sessionSecretEnv : Option Str)
    (tokenExchange : Str → Except Str Str)
    (fetchUser : Str → Except Str Identity) (freshSid : Str)
    (code state oauthCookie : Option Str) (store : SessionsMap)
    (H : (callbackRoute hmac clientSecret sessionSecretEnv tokenExchange
            fetchUser freshSid code state oauthCookie store).2 ≠ store ∨
         (callbackRoute hmac clientSecret sessionSecretEnv tokenExchange
            fetchUser freshSid code state oauthCookie store).1.sidCookie
           ≠ none) :
    isFalsy code = false ∧ isFalsy state = false ∧ state = oauthCookie ∧
    isFalsy clientSecret = false ∧
    ∃ tok me, tokenExchange (code.getD []) = .ok tok ∧
      fetchUser tok = .ok me := by
  by_cases h1 : isFalsy code = true ∨ isFalsy state = true ∨
      state ≠ oauthCookie
  · exfalso
    unfold callbackRoute at H
    rw [if_pos h1] at H
    simp at H
  · by_cases h2 : isFalsy clientSecret = true
    · exfalso
      unfold callbackRoute at H
      rw [if_neg h1, if_pos h2] at H
      simp at H
    · cases hT : tokenExchange (code.getD []) with
      | error e =>
        exfalso
        unfold callbackRoute at H
        rw [if_neg h1, if_neg h2, hT] at H
        simp at H
      | ok tok =>
        cases hU : fetchUser tok with
        | error e =>
          exfalso
          unfold callbackRoute at H
          rw [if_neg h1, if_neg h2, hT] at H
          simp [hU] at H
        | ok me =>
          push_neg at h1
          obtain ⟨hc, hs, hsc⟩ := h1
          simp only [Bool.not_eq_true] at hc hs
          exact ⟨hc, hs, hsc, by simpa using h2, tok, me, rfl, hU⟩

/-- C7 witness: a fully successful callback (it does set a cookie) entails
that every check passed. -/
theorem callback_atomicity_witness :
    isFalsy (some ("c".toList)) = false ∧
    isFalsy (some ("st".toList)) = false ∧
    (some ("st".toList) : Option Str) = some ("st".toList) ∧
    isFalsy (some ("cs".toList)) = false ∧
    ∃ tok me,
      (fun _ : Str => (.ok ("tok".toList) : Except Str Str))
        ((some ("c".toList) : Option Str).getD []) = .ok tok ∧
      (fun _ : Str =>
          (.ok ⟨"42".toList, "ann".toList⟩ : Except Str Identity)) tok
        = .ok me :=
  callback_atomicity hmacC (some ("cs".toList)) (some ("s".toList))
    (fun _ => .ok ("tok".toList))
    (fun _ => .ok ⟨"42".toList, "ann".toList⟩) ("f".toList)
    (some ("c".toList)) (some ("st".toList)) (some ("st".toList)) []
    (Or.inr (by decide))

/-- A concrete stored session used by counterexamples and witnesses. -/
def sessA : Session := ⟨"1".toList, "ann".toList⟩

/-- A second, distinct concrete session. -/
def sessB : Session := ⟨"2".toList, "bob".toList⟩

/-- C3 counterexample: `makeSid` draws 24 random bytes and hex-encodes
them, but no uniqueness check is made against the current entries — when
the drawn bytes encode to a key already in the store (here the all-zero
draw against a store holding that very key), the successful callback's
`sessions.set` replaces the existing entry: the store still has one entry,
now bound to the new identity. -/
theorem makeSid_overwrite_cex :
    makeSid (List.replicate 24 0) = List.replicate 48 '0' ∧
    (callbackRoute hmacC (some ("cs".toList)) (some ("s".toList))
        (fun _ => .ok ("tok".toList))
        (fun _ => .ok ⟨"2".toList, "bob".toList⟩)
        (makeSid (List.replicate 24 0)) (some ("c".toList))
        (some ("st".toList)) (some ("st".toList))
        [(List.replicate 48 '0', sessA)]).2
      = [(List.replicate 48 '0', sessB)] ∧
    sessA ≠ sessB := by
  refine ⟨by decide, ?_, by decide⟩
  decide

/-- C3 amended: the generated identifier is the hex encoding of 24 random
bytes (48 hex characters, 192 ≥ 128 bits of entropy), and only when it is
not already a key of the store does creating the session leave every
existing entry untouched, appending the new one; uniqueness itself is never
checked. -/
theorem makeSid_create_amended (bytes : List Nat) (m : SessionsMap)
    (v : Session) (hlen : bytes.length = 24)
    (hfresh : mapHas m (makeSid bytes) = false) :
    (makeSid bytes).length = 48 ∧
    mapSet m (makeSid bytes) v = m ++ [(makeSid bytes, v)] :=
  ⟨by rw [makeSid_length, hlen], mapSet_absent m _ v hfresh⟩

/-- C3 amended witness: the all-zero draw against a store not holding its
encoding. -/
theorem makeSid_create_amended_witness :
    (makeSid (List.replicate 24 0)).length = 48 ∧
    mapSet [("k".toList, sessB)] (makeSid (List.replicate 24 0)) sessA
      = [("k".toList, sessB)] ++ [(makeSid (List.replicate 24 0), sessA)] :=
  makeSid_create_amended (List.replicate 24 0) [("k".toList, sessB)] sessA
    (by decide) (by decide)

/-- C4 counterexample: with `SESSION_SECRET` absent from the environment
the code substitutes the default `change_me` and proceeds — the verifying
middleware authenticates a cookie signed under the default instead of
failing, and the signing callback route completes with a 302 and a cookie
signed under the default; no route produces a configuration error. -/
theorem session_secret_not_required_cex :
    effectiveSecret none = changeMe ∧
    requireAuth hmacC none [("a".toList, sessA)]
        (some (sign hmacC changeMe ("a".toList)))
      = some ("a".toList, sessA) ∧
    (callbackRoute hmacC (some ("cs".toList)) none
        (fun _ => .ok ("tok".toList))
        (fun _ => .ok ⟨"42".toList, "ann".toList⟩) ("f".toList)
        (some ("c".toList)) (some ("st".toList)) (some ("st".toList))
        []).1
      = ⟨302, some (sign hmacC changeMe ("f".toList)), true⟩ := by
  refine ⟨rfl, by decide, by decide⟩

/-- C4 amended: the session-signing secret is not a required setting — when
`SESSION_SECRET` is absent or empty, the routes that sign or verify the
session cookie behave exactly as with the literal default secret
`change_me`, proceeding rather than failing. -/
theorem session_secret_default_amended (hmac : Str → Str → Str)
    (secretEnv : Option Str) (h : isFalsy secretEnv = true) :
    effectiveSecret secretEnv = changeMe ∧
    (∀ store cookie, requireAuth hmac secretEnv store cookie
        = requireAuth hmac (some changeMe) store cookie) ∧
    (∀ cs tE fU sid code st oc store,
      callbackRoute hmac cs secretEnv tE fU sid code st oc store
        = callbackRoute hmac cs (some changeMe) tE fU sid code st oc
            store) := by
  have he : effectiveSecret secretEnv = changeMe := by
    cases secretEnv with
    | none => rfl
    | some s =>
      simp only [isFalsy] at h
      simp [effectiveSecret, h]
  have he2 : effectiveSecret (some changeMe) = changeMe := by
    simp [effectiveSecret, changeMe]
  refine ⟨he, fun store cookie => ?_, fun cs tE fU sid code st oc store =>
    ?_⟩
  · unfold requireAuth
    rw [he, he2]
  · unfold callbackRoute
    rw [he, he2]

/-- C4 amended witness: the absent secret behaves as the default on a
concrete middleware call and a concrete callback call. -/
theorem session_secret_default_amended_witness :
    effectiveSecret none = changeMe ∧
    requireAuth hmacC none [("a".toList, sessA)]
        (some (sign hmacC changeMe ("a".toList)))
      = requireAuth hmacC (some changeMe) [("a".toList, sessA)]
          (some (sign hmacC changeMe ("a".toList))) ∧
    callbackRoute hmacC (some ("cs".toList)) none
        (fun _ => .ok ("tok".toList))
        (fun _ => .ok ⟨"42".toList, "ann".toList⟩) ("f".toList)
        (some ("c".toList)) (some ("st".toList)) (some ("st".toList)) []
      = callbackRoute hmacC (some ("cs".toList)) (some changeMe)
          (fun _ => .ok ("tok".toList))
          (fun _ => .ok ⟨"42".toList, "ann".toList⟩) ("f".toList)
          (some ("c".toList)) (some ("st".toList)) (some ("st".toList))
          [] := by
  refine ⟨(session_secret_default_amended hmacC none rfl).1,
    (session_secret_default_amended hmacC none rfl).2.1
      [("a".toList, sessA)] (some (sign hmacC changeMe ("a".toList))),
    (session_secret_default_amended hmacC none rfl).2.2
      (some ("cs".toList)) (fun _ => .ok ("tok".toList))
      (fun _ => .ok ⟨"42".toList, "ann".toList⟩) ("f".toList)
      (some ("c".toList)) (some ("st".toList)) (some ("st".toList)) []⟩

/-- C9.  Logout invalidates the cookie: if a request authenticates to a
session id, then after the logout route deletes that session the same
cookie — whose signature still verifies — is rejected (401) by the
middleware. -/
theorem logout_then_unauthenticated (hmac : Str → Str → Str)
    (secretEnv : Option Str) (store : SessionsMap) (cookie : Option Str)
    (sid : Str) (sess : Session)
    (h : requireAuth hmac secretEnv store cookie = some (sid, sess)) :
    requireAuth hmac secretEnv (logoutRoute store sid).1 cookie = none := by
  unfold requireAuth at h ⊢
  cases hv : verify hmac (effectiveSecret secretEnv) cookie with
  | none => simp [hv] at h
  | some sid2 =>
    simp only [hv] at h ⊢
    by_cases hnil : sid2 = []
    · simp [hnil] at h
    · simp only [if_neg hnil] at h ⊢
      cases hm : mapGet store sid2 with
      | none => simp [hm] at h
      | some s2 =>
        simp only [hm, Option.some.injEq, Prod.mk.injEq] at h
        obtain ⟨rfl, rfl⟩ := h
        simp [logoutRoute, mapGet_mapDelete_self]

/-- C9 witness: a concrete authenticated cookie is rejected after the
logout deletes its session. -/
theorem logout_then_unauthenticated_witness :
    requireAuth hmacC (some ("s".toList))
        (logoutRoute [("a".toList, sessA)] ("a".toList)).1
        (some (sign hmacC ("s".toList) ("a".toList)))
      = none :=
  logout_then_unauthenticated hmacC (some ("s".toList))
    [("a".toList, sessA)] (some (sign hmacC ("s".toList) ("a".toList)))
    ("a".toList) sessA (by decide)

end Boostify
